import Mathlib

/-!
Verification of the AtomCLI build pipeline: a shallow embedding of the
builder module (target-template registry, source patcher, batch build
orchestration) and the downloader module (HTTP download, checksum
verification, smart-caching manifest protocol), with theorems checking
the natural-language specification against the code.

Strings are modelled by Lean `String` (a wrapper around `List Char`);
the JavaScript regular expressions used by the patcher are given an
executable leftmost-greedy backtracking semantics over a small pattern
datatype that covers exactly the constructs those regexes use.
-/

namespace AtomCLI

-- ═══════════════════════════════════════════════════════════════════════════
-- JavaScript-semantics helpers
-- ═══════════════════════════════════════════════════════════════════════════

/-- JavaScript `a || d` for an optional string: `undefined` and the empty
string are falsy and fall through to the default. -/
def jsOr (a : Option String) (d : String) : String :=
  match a with
  | none => d
  | some s => if s.isEmpty then d else s

/-- JavaScript truthiness of an optional string (`undefined`, `null` and
`""` are falsy). -/
def strTruthy : Option String → Bool
  | none => false
  | some s => !s.isEmpty

/-- `path.join` restricted to the forward-slash form used throughout the
model (the claims do not depend on the platform separator). -/
def pathJoin (a b : String) : String := a ++ "/" ++ b

-- ═══════════════════════════════════════════════════════════════════════════
-- Pattern engine: executable semantics for the patcher's regexes
-- ═══════════════════════════════════════════════════════════════════════════

/-- One element of a regular-expression pattern: a literal character, a
character class, a greedy repetition (`*` with `min = 0`, `+` with
`min = 1`) of a class, or an optional (`?`) class. -/
inductive Pat where
  | lit (c : Char)
  | cls (p : Char → Bool)
  | many (min : Nat) (p : Char → Bool)
  | opt (p : Char → Bool)

/-- Backtracking helper for greedy repetition: `next` matches the rest of
the pattern; try consuming `k` characters of the class (all of which are
known to satisfy it), then `k - 1`, …, down to `min`. -/
def kleeneGo (next : List Char → Option Nat) (mn : Nat) (xs : List Char) :
    Nat → Option Nat
  | 0 => if mn = 0 then next xs else none
  | k + 1 =>
    if k + 1 < mn then none
    else
      match next (xs.drop (k + 1)) with
      | some n => some (k + 1 + n)
      | none => kleeneGo next mn xs k

/-- Match a pattern sequence at the head of the input, returning the number
of characters consumed; greedy, with backtracking (JavaScript semantics). -/
def matchHere : List Pat → List Char → Option Nat
  | [] => fun _ => some 0
  | .lit c :: ps => fun l =>
    match l with
    | [] => none
    | x :: xs => if x = c then (matchHere ps xs).map (· + 1) else none
  | .cls p :: ps => fun l =>
    match l with
    | [] => none
    | x :: xs => if p x then (matchHere ps xs).map (· + 1) else none
  | .opt p :: ps => fun l =>
    match l with
    | [] => matchHere ps []
    | x :: xs =>
      if p x then
        match matchHere ps xs with
        | some n => some (n + 1)
        | none => matchHere ps (x :: xs)
      else matchHere ps (x :: xs)
  | .many mn p :: ps => fun xs =>
    kleeneGo (matchHere ps) mn xs ((xs.takeWhile p).length)

/-- Does the pattern match anywhere in the input (JavaScript `re.test`)? -/
def regexTestL (pats : List Pat) : List Char → Bool
  | [] => (matchHere pats []).isSome
  | x :: xs => (matchHere pats (x :: xs)).isSome || regexTestL pats xs

/-- Replace the leftmost match of the pattern, if any (JavaScript
`s.replace(re, r)` for a non-global regex). -/
def replaceFirstL (pats : List Pat) (r : List Char) : List Char → List Char
  | [] => if (matchHere pats []).isSome then r else []
  | x :: xs =>
    match matchHere pats (x :: xs) with
    | some n => r ++ (x :: xs).drop n
    | none => x :: replaceFirstL pats r xs

/-- Fuel-driven scan for the global replace: each step consumes at least
one character, so fuel equal to the input length never runs out. -/
def globalReplaceGo (pats : List Pat) (f : List Char → List Char) :
    Nat → List Char → List Char
  | 0, l => l
  | fuel + 1, l =>
    match l with
    | [] => []
    | x :: xs =>
      match matchHere pats l with
      | some (n + 1) =>
        f (l.take (n + 1)) ++ globalReplaceGo pats f fuel (l.drop (n + 1))
      | some 0 => x :: globalReplaceGo pats f fuel xs
      | none => x :: globalReplaceGo pats f fuel xs

/-- Replace every (non-overlapping, leftmost-first) match of the pattern,
transforming each matched text with `f` (JavaScript `s.replace(re, r)` for
a global regex; `f` accounts for replacement strings using `$1`). -/
def globalReplaceL (pats : List Pat) (f : List Char → List Char)
    (l : List Char) : List Char :=
  globalReplaceGo pats f l.length l

/-- A literal string as a pattern sequence. -/
def litPats (s : String) : List Pat := s.data.map Pat.lit

/-- JavaScript `s.replace(pat, repl)` with a *string* pattern: only the
first (leftmost) occurrence is replaced. -/
def jsReplaceOnce (s pat repl : String) : String :=
  ⟨replaceFirstL (litPats pat) repl.data s.data⟩

/-- String wrapper for `regexTestL`. -/
def regexTest (pats : List Pat) (s : String) : Bool := regexTestL pats s.data

/-- String wrapper for `replaceFirstL`. -/
def replaceFirst (pats : List Pat) (r s : String) : String :=
  ⟨replaceFirstL pats r.data s.data⟩

/-- String wrapper for `globalReplaceL`. -/
def globalReplace (pats : List Pat) (f : List Char → List Char) (s : String) :
    String :=
  ⟨globalReplaceL pats f s.data⟩

-- ═══════════════════════════════════════════════════════════════════════════
-- Builder: tool configuration and build-target registry
-- ═══════════════════════════════════════════════════════════════════════════

/-- The `build` sub-record of a `CLI_REGISTRY` entry. -/
structure BuildConfig where
  entryPoint : Option String := none
  envPrefix : Option String := none
  binaryName : Option String := none
deriving Repr, DecidableEq

/-- A tool configuration (`toolConfig` parameter); only the fields the
builder reads are modelled. An absent configuration is `none`. -/
structure ToolConfig where
  name : Option String := none
  build : Option BuildConfig := none
deriving Repr, DecidableEq

/-- `toolConfig?.build?.entryPoint` and friends. -/
def buildField (f : BuildConfig → Option String) (tc : Option ToolConfig) :
    Option String :=
  (tc.bind ToolConfig.build).bind f

/-- One entry of `BUILD_TARGET_TEMPLATES`. -/
structure BuildTargetTemplate where
  target : String
  platform : String
  arch : String
  variant : String
  extension : String
  requires : Option String := none
  libc : Option String := none
  shell : Option String := none
  description : Option String := none
deriving Repr, DecidableEq

/-- `BUILD_TARGET_TEMPLATES`, in source (insertion) order. -/
def BUILD_TARGET_TEMPLATES : List (String × BuildTargetTemplate) :=
  [ ("windows-x64",
      { target := "bun-windows-x64", platform := "windows", arch := "x64",
        variant := "standard", extension := ".exe" }),
    ("windows-x64-modern",
      { target := "bun-windows-x64-modern", platform := "windows", arch := "x64",
        variant := "modern", extension := ".exe",
        requires := some "AVX2 (CPUs from 2013+)" }),
    ("windows-x64-baseline",
      { target := "bun-windows-x64-baseline", platform := "windows", arch := "x64",
        variant := "baseline", extension := ".exe",
        requires := some "SSE2 (CPUs from 2003+)" }),
    ("linux-x64",
      { target := "bun-linux-x64", platform := "linux", arch := "x64",
        variant := "standard", extension := "" }),
    ("linux-x64-modern",
      { target := "bun-linux-x64-modern", platform := "linux", arch := "x64",
        variant := "modern", extension := "" }),
    ("linux-x64-baseline",
      { target := "bun-linux-x64-baseline", platform := "linux", arch := "x64",
        variant := "baseline", extension := "" }),
    ("linux-arm64",
      { target := "bun-linux-arm64", platform := "linux", arch := "arm64",
        variant := "standard", extension := "" }),
    ("linux-x64-musl",
      { target := "bun-linux-x64-musl", platform := "linux", arch := "x64",
        variant := "musl", extension := "", libc := some "musl" }),
    ("linux-arm64-musl",
      { target := "bun-linux-arm64-musl", platform := "linux", arch := "arm64",
        variant := "musl", extension := "", libc := some "musl" }),
    ("macos-x64",
      { target := "bun-darwin-x64", platform := "macos", arch := "x64",
        variant := "standard", extension := "" }),
    ("macos-arm64",
      { target := "bun-darwin-arm64", platform := "macos", arch := "arm64",
        variant := "standard", extension := "" }),
    ("android-arm64",
      { target := "bun-linux-arm64", platform := "android", arch := "arm64",
        variant := "termux", extension := "",
        shell := some "/data/data/com.termux/files/usr/bin/bash",
        description := some "Android ARM64 (Termux)" }) ]

/-- A concrete build target: a template plus the rendered `output` name. -/
structure BuildTarget extends BuildTargetTemplate where
  output : String
deriving Repr, DecidableEq

/-- `generateBuildTargets(toolId, toolConfig)`: each template is copied and
`output` is set to `binaryName ++ "-" ++ id ++ (extension || "")`, where
`binaryName` is `toolConfig?.build?.binaryName || toolId`. -/
def generateBuildTargets (toolId : String) (toolConfig : Option ToolConfig) :
    List (String × BuildTarget) :=
  let binaryName := jsOr (buildField BuildConfig.binaryName toolConfig) toolId
  BUILD_TARGET_TEMPLATES.map fun it =>
    (it.1, { it.2 with
             output := binaryName ++ "-" ++ it.1 ++
               (if it.2.extension.isEmpty then "" else it.2.extension) })

/-- The default `BUILD_TARGETS` (Claude Code, backwards compatibility). -/
def BUILD_TARGETS : List (String × BuildTarget) :=
  generateBuildTargets "claude-code"
    (some { build := some { binaryName := some "claude-code" } })

/-- `getTargetsForPlatform(platform)`. -/
def getTargetsForPlatform (platform : String) : List (String × BuildTarget) :=
  BUILD_TARGETS.filter fun it => it.2.platform == platform

/-- The platform-detection step of `getCurrentTarget`: maps
`process.platform` onto the registry's platform names. -/
def hostPlatformOf (osPlatform : String) : String :=
  if osPlatform = "win32" then "windows"
  else if osPlatform = "darwin" then "macos"
  else "linux"

/-- The search predicate of `getCurrentTarget`: platform and architecture
match the host and the variant is `'standard'`. -/
def currentTargetPred (platform osArch : String) (it : String × BuildTarget) :
    Bool :=
  it.2.platform == platform && it.2.arch == osArch && it.2.variant == "standard"

/-- `getCurrentTarget()`, with the host's `process.platform` and
`process.arch` passed explicitly: the first standard-variant target whose
platform and architecture match the host, defaulting to `"linux-x64"`. -/
def getCurrentTarget (osPlatform osArch : String) : String :=
  let platform := hostPlatformOf osPlatform
  match BUILD_TARGETS.find? (currentTargetPred platform osArch) with
  | some it => it.1
  | none => "linux-x64"

-- ═══════════════════════════════════════════════════════════════════════════
-- Builder: source patcher
-- ═══════════════════════════════════════════════════════════════════════════

/-- The `SHELL_DETECTION_CODE` constant injected by `applyCommonPatches`. -/
def SHELL_DETECTION_CODE : String :=
  "
// ATOMCLI: Runtime Shell Detection
var __atomcli_detectShell = (function() \x7b
  var fs = require('fs');
  var cp = require('child_process');
  return function() \x7b
    var env = process.env;
    // User preference via env var takes priority
    if (env.CLAUDE_SHELL) return env.CLAUDE_SHELL;
    if (process.platform === 'win32') \x7b
      // Windows: PowerShell Core > PowerShell > cmd
      var winShells = ['pwsh.exe', 'powershell.exe', 'cmd.exe'];
      for (var i = 0; i < winShells.length; i++) \x7b
        try \x7b cp.execSync('where ' + winShells[i], \x7bstdio:'pipe'\x7d); return winShells[i]; \x7d catch(e) \x7b\x7d
      \x7d
      return 'cmd.exe';
    \x7d else \x7b
      // Termux detection first
      if (fs.existsSync('/data/data/com.termux/files/usr/bin/bash')) \x7b
        return '/data/data/com.termux/files/usr/bin/bash';
      \x7d
      // Unix: check SHELL env
      if (env.SHELL && fs.existsSync(env.SHELL)) return env.SHELL;
      // Fallback: try common shells
      var unixShells = ['/bin/bash', '/bin/zsh', '/bin/sh'];
      for (var j = 0; j < unixShells.length; j++) \x7b
        if (fs.existsSync(unixShells[j])) return unixShells[j];
      \x7d
      return '/bin/sh';
    \x7d
  \x7d;
\x7d)();
"

/-- The Windows compatibility header, text before the interpolated binary name. -/
def winHeaderPart0 : String :=
  "
// \u2550\u2550\u2550\u2550\u2550\u2550\u2550\u2550\u2550\u2550\u2550\u2550\u2550\u2550\u2550\u2550\u2550\u2550\u2550\u2550\u2550\u2550\u2550\u2550\u2550\u2550\u2550\u2550\u2550\u2550\u2550\u2550\u2550\u2550\u2550\u2550\u2550\u2550\u2550\u2550\u2550\u2550\u2550\u2550\u2550\u2550\u2550\u2550\u2550\u2550\u2550\u2550\u2550\u2550\u2550\u2550\u2550\u2550\u2550\u2550\u2550\u2550\u2550\u2550\u2550\u2550\u2550\u2550\u2550\u2550\u2550\u2550\u2550\u2550\u2550
// WINDOWS COMPATIBILITY LAYER
// \u2550\u2550\u2550\u2550\u2550\u2550\u2550\u2550\u2550\u2550\u2550\u2550\u2550\u2550\u2550\u2550\u2550\u2550\u2550\u2550\u2550\u2550\u2550\u2550\u2550\u2550\u2550\u2550\u2550\u2550\u2550\u2550\u2550\u2550\u2550\u2550\u2550\u2550\u2550\u2550\u2550\u2550\u2550\u2550\u2550\u2550\u2550\u2550\u2550\u2550\u2550\u2550\u2550\u2550\u2550\u2550\u2550\u2550\u2550\u2550\u2550\u2550\u2550\u2550\u2550\u2550\u2550\u2550\u2550\u2550\u2550\u2550\u2550\u2550\u2550

let __executablePath;
if (process.argv[1]) \x7b
  const path = require('path');
  __executablePath = path.isAbsolute(process.argv[1]) ? process.argv[1] : path.resolve(process.argv[1]);
\x7d else \x7b
  __executablePath = require('path').join(process.cwd(), '"

/-- The Windows compatibility header, text after the interpolated binary name. -/
def winHeaderPart1 : String :=
  ".exe');
\x7d

const __filename = __executablePath;
const __dirname = require('path').dirname(__executablePath);

function __toFileURL(filePath) \x7b
  const resolved = require('path').resolve(filePath);
  if (process.platform === 'win32') \x7b
    return 'file:///' + resolved.replace(/\\\\/g, '/');
  \x7d
  return 'file://' + resolved;
\x7d

// \u2550\u2550\u2550\u2550\u2550\u2550\u2550\u2550\u2550\u2550\u2550\u2550\u2550\u2550\u2550\u2550\u2550\u2550\u2550\u2550\u2550\u2550\u2550\u2550\u2550\u2550\u2550\u2550\u2550\u2550\u2550\u2550\u2550\u2550\u2550\u2550\u2550\u2550\u2550\u2550\u2550\u2550\u2550\u2550\u2550\u2550\u2550\u2550\u2550\u2550\u2550\u2550\u2550\u2550\u2550\u2550\u2550\u2550\u2550\u2550\u2550\u2550\u2550\u2550\u2550\u2550\u2550\u2550\u2550\u2550\u2550\u2550\u2550\u2550\u2550

"

/-- The embedded-files block of `addEmbeddedImports`, before the imports. -/
def embeddedCodePart0 : String :=
  "
// \u2550\u2550\u2550\u2550\u2550\u2550\u2550\u2550\u2550\u2550\u2550\u2550\u2550\u2550\u2550\u2550\u2550\u2550\u2550\u2550\u2550\u2550\u2550\u2550\u2550\u2550\u2550\u2550\u2550\u2550\u2550\u2550\u2550\u2550\u2550\u2550\u2550\u2550\u2550\u2550\u2550\u2550\u2550\u2550\u2550\u2550\u2550\u2550\u2550\u2550\u2550\u2550\u2550\u2550\u2550\u2550\u2550\u2550\u2550\u2550\u2550\u2550\u2550\u2550\u2550\u2550\u2550\u2550\u2550\u2550\u2550\u2550\u2550\u2550\u2550
// ATOMCLI EMBEDDED FILES
// Generated by AtomCLI Builder
// \u2550\u2550\u2550\u2550\u2550\u2550\u2550\u2550\u2550\u2550\u2550\u2550\u2550\u2550\u2550\u2550\u2550\u2550\u2550\u2550\u2550\u2550\u2550\u2550\u2550\u2550\u2550\u2550\u2550\u2550\u2550\u2550\u2550\u2550\u2550\u2550\u2550\u2550\u2550\u2550\u2550\u2550\u2550\u2550\u2550\u2550\u2550\u2550\u2550\u2550\u2550\u2550\u2550\u2550\u2550\u2550\u2550\u2550\u2550\u2550\u2550\u2550\u2550\u2550\u2550\u2550\u2550\u2550\u2550\u2550\u2550\u2550\u2550\u2550\u2550

"

/-- The embedded-files block, between the imports and the mapping. -/
def embeddedCodePart1 : String :=
  "

const __embeddedFiles = \x7b
"

/-- The embedded-files block, after the mapping. -/
def embeddedCodePart2 : String :=
  "
\x7d;

function __getSafePlatform() \x7b
  try \x7b
    const p = typeof process !== 'undefined' ? process : \x7b\x7d;
    return \x7b arch: (p.arch || 'x64').toString(), platform: (p.platform || 'linux').toString() \x7d;
  \x7d catch (e) \x7b
    return \x7b arch: 'x64', platform: 'linux' \x7d;
  \x7d
\x7d

// \u2550\u2550\u2550\u2550\u2550\u2550\u2550\u2550\u2550\u2550\u2550\u2550\u2550\u2550\u2550\u2550\u2550\u2550\u2550\u2550\u2550\u2550\u2550\u2550\u2550\u2550\u2550\u2550\u2550\u2550\u2550\u2550\u2550\u2550\u2550\u2550\u2550\u2550\u2550\u2550\u2550\u2550\u2550\u2550\u2550\u2550\u2550\u2550\u2550\u2550\u2550\u2550\u2550\u2550\u2550\u2550\u2550\u2550\u2550\u2550\u2550\u2550\u2550\u2550\u2550\u2550\u2550\u2550\u2550\u2550\u2550\u2550\u2550\u2550\u2550

"

/-- The file system seen by the builder: a finite map from paths to file
contents (`fs.existsSync` is key membership, `fs.readFileSync` is lookup). -/
def FileSys : Type := List (String × String)

/-- `fs.existsSync`. -/
def fsExists (fs : FileSys) (p : String) : Bool :=
  (List.lookup p fs).isSome

/-- The shebang regex `/^#!.*\n/` (`.` does not match a newline), also
`/^#![^\n]*\n/` in `applyCommonPatches` — the two are equivalent. -/
def shebangPats : List Pat :=
  [.lit '#', .lit '!', .many 0 (fun c => c != '\n'), .lit '\n']

/-- Insert a block right after a leading shebang line, or prepend it when
there is none (the insertion logic of `addEmbeddedImports` and
`applyWindowsPatches`). -/
def insertAfterShebang (ins content : String) : String :=
  match matchHere shebangPats content.data with
  | some n => ⟨content.data.take n⟩ ++ ins ++ ⟨content.data.drop n⟩
  | none => ins ++ content

/-- The ripgrep vendor binaries probed by `addEmbeddedImports`, in source
order: relative path and generated import variable. -/
def ripgrepFiles : List (String × String) :=
  [ ("vendor/ripgrep/arm64-darwin/rg", "__embeddedRgDarwinArm64"),
    ("vendor/ripgrep/arm64-linux/rg", "__embeddedRgLinuxArm64"),
    ("vendor/ripgrep/x64-darwin/rg", "__embeddedRgDarwinX64"),
    ("vendor/ripgrep/x64-linux/rg", "__embeddedRgLinuxX64"),
    ("vendor/ripgrep/x64-win32/rg.exe", "__embeddedRgWin32") ]

/-- `addEmbeddedImports(content, sourceDir)`: emit an import directive and a
lookup-table entry for each asset present on disk, and insert the block
after the shebang (or at the start). -/
def addEmbeddedImports (fs : FileSys) (content sourceDir : String) : String :=
  let yogaPresent := fsExists fs (pathJoin sourceDir "yoga.wasm")
  let rgPresent := ripgrepFiles.filter fun fp => fsExists fs (pathJoin sourceDir fp.1)
  let embeddedImports :=
    (if yogaPresent then
      ["import __embeddedYogaWasm from \"./yoga.wasm\" with \x7b type: \"file\" \x7d;"]
     else []) ++
    rgPresent.map fun fp =>
      "import " ++ fp.2 ++ " from \"./" ++ fp.1 ++ "\" with \x7b type: \"file\" \x7d;"
  let embeddedFilesMapping :=
    (if yogaPresent then ["  'yoga.wasm': __embeddedYogaWasm,"] else []) ++
    rgPresent.map fun fp => "  '" ++ fp.1 ++ "': " ++ fp.2 ++ ","
  let embeddedCode :=
    embeddedCodePart0 ++ String.intercalate "\n" embeddedImports ++
    embeddedCodePart1 ++ String.intercalate "\n" embeddedFilesMapping ++
    embeddedCodePart2
  insertAfterShebang embeddedCode content

/-- JavaScript `\w`: ASCII alphanumeric or underscore. -/
def isWordChar (c : Char) : Bool := c.isAlphanum || c == '_'

/-- The three entry-point marker patterns tried in order (tool-specific,
Claude Code fallback, generic `\w+` fallback). The dynamically built first
regex escapes its dots, so it is the literal shown here; the interpolated
prefix is assumed to contain no regex metacharacters, as every registry
prefix does. -/
def entrypointPatterns (envPrefix : String) : List (List Pat) :=
  [ litPats ("process.env." ++ envPrefix ++ "_ENTRYPOINT=\"cli\""),
    litPats "process.env.CLAUDE_CODE_ENTRYPOINT=\"cli\"",
    litPats "process.env." ++ [.many 1 isWordChar] ++
      litPats "_ENTRYPOINT=\"cli\"" ]

/-- The `for (const pattern of entrypointPatterns) { if (pattern.test) {
replace; break } }` loop shared by both patchers. -/
def applyFirstMatching : List (List Pat) → String → String → String
  | [], _, content => content
  | p :: ps, repl, content =>
    if regexTest p content then replaceFirst p repl content
    else applyFirstMatching ps repl content

/-- `toolConfig?.build?.envPrefix || 'CLI_TOOL'`. -/
def envPrefixOf (tc : Option ToolConfig) : String :=
  jsOr (buildField BuildConfig.envPrefix tc) "CLI_TOOL"

/-- The marker replacement used by `applyWindowsPatches`. -/
def winMarkerReplacement (p : String) : String :=
  "process.env." ++ p ++ "_ENTRYPOINT=\"cli\";process.env." ++ p ++
    "_WINDOWS_EXECUTABLE=\"1\""

/-- The marker replacement used by `applyCommonPatches`. -/
def commonMarkerReplacement (p : String) : String :=
  "process.env." ++ p ++ "_ENTRYPOINT=\"cli\";process.env." ++ p ++
    "_BUNDLED=\"1\""

/-- The POSIX-to-Windows conversions of `applyWindowsPatches`: the three
global replaces for `"/dev/null"`, `source ${w}` and `eval ${w}`. -/
def winPosixConvert (c : String) : String :=
  let c := globalReplace (litPats "\"/dev/null\"") (fun _ => "\"NUL\"".data) c
  let c := globalReplace
    (litPats "source $\x7b" ++ [.many 1 isWordChar, .lit '\x7d'])
    (fun m => "REM ".data ++ m) c
  globalReplace
    (litPats "eval $\x7b" ++ [.many 1 isWordChar, .lit '\x7d'])
    (fun m => m.drop 5) c

/-- The stage of `applyWindowsPatches` before the marker rewrite: header
insertion, `import.meta.url` rewrite, POSIX conversions. -/
def winPreMarker (content : String) (tc : Option ToolConfig) : String :=
  let binaryName := jsOr (buildField BuildConfig.binaryName tc) "cli-tool"
  let c := insertAfterShebang (winHeaderPart0 ++ binaryName ++ winHeaderPart1)
    content
  let c := globalReplace (litPats "import.meta.url")
    (fun _ => "__toFileURL(__filename)".data) c
  winPosixConvert c

/-- `applyWindowsPatches(content, toolConfig)`. -/
def applyWindowsPatches (content : String) (tc : Option ToolConfig) : String :=
  applyFirstMatching (entrypointPatterns (envPrefixOf tc))
    (winMarkerReplacement (envPrefixOf tc)) (winPreMarker content tc)

/-- The shebang-stripping step of `applyCommonPatches`. -/
def stripShebang (content : String) : String :=
  match matchHere shebangPats content.data with
  | some n => ⟨content.data.drop n⟩
  | none => content

/-- The marker-rewrite step of `applyCommonPatches`. -/
def applyCommonMarker (tc : Option ToolConfig) (c : String) : String :=
  applyFirstMatching (entrypointPatterns (envPrefixOf tc))
    (commonMarkerReplacement (envPrefixOf tc)) c

/-- The `'use strict'` prefix regex `/^(['"]use strict['"];?)/` (note that
each quote is an independent character class). -/
def isQuoteChar (c : Char) : Bool := c == '\x27' || c == '"'

/-- Pattern sequence for the `'use strict'` prefix regex. -/
def strictPats : List Pat :=
  .cls isQuoteChar :: (litPats "use strict" ++
    [.cls isQuoteChar, .opt (fun c => c == ';')])

/-- The injection step of `applyCommonPatches`: insert
`SHELL_DETECTION_CODE` after a leading `'use strict'` directive, or prepend
it. -/
def injectShellDetection (c : String) : String :=
  match matchHere strictPats c.data with
  | some n => ⟨c.data.take n⟩ ++ SHELL_DETECTION_CODE ++ ⟨c.data.drop n⟩
  | none => SHELL_DETECTION_CODE ++ c

/-- The minified-shell-check regex
`/if\(!J\)\{let F="No suitable shell found[^}]+throw[^}]+\}/`. -/
def shellCheckPats : List Pat :=
  litPats "if(!J)\x7blet F=\"No suitable shell found" ++
    [.many 1 (fun c => c != '\x7d')] ++ litPats "throw" ++
    [.many 1 (fun c => c != '\x7d'), .lit '\x7d']

/-- The shell-check replacement text. -/
def shellCheckReplacement : String := "if(!J)\x7bJ=__atomcli_detectShell()\x7d"

/-- The shell-check bypass step of `applyCommonPatches`. -/
def bypassShellCheck (c : String) : String :=
  if regexTest shellCheckPats c then
    replaceFirst shellCheckPats shellCheckReplacement c
  else c

/-- `applyCommonPatches(content, toolConfig)`: strip shebang, rewrite the
entry-point marker, inject the shell-detection code, bypass the POSIX
shell check. -/
def applyCommonPatches (content : String) (tc : Option ToolConfig) : String :=
  bypassShellCheck (injectShellDetection (applyCommonMarker tc
    (stripShebang content)))

/-- `toolConfig?.build?.entryPoint || 'cli.js'`. -/
def entryPointOf (tc : Option ToolConfig) : String :=
  jsOr (buildField BuildConfig.entryPoint tc) "cli.js"

/-- `path.basename(entryPoint, '.js')`. -/
def basenameNoJs (p : String) : String :=
  let base := (p.splitOn "/").getLastD p
  if base.endsWith ".js" then base.dropRight 3 else base

/-- `prepareSource(sourceDir, targetPlatform, {toolConfig})`: check the
entry point exists (else throw a configuration error, before any write),
apply the patch pipeline, and write the prepared file. The single
`fs.writeFileSync` is modelled by the returned `(path, contents)` pair;
the error branch performs no write. -/
def prepareSource (fs : FileSys) (sourceDir targetPlatform : String)
    (tc : Option ToolConfig) : Except String (String × String) :=
  let entryPoint := entryPointOf tc
  let cliPath := pathJoin sourceDir entryPoint
  match List.lookup cliPath fs with
  | none => .error ("CLI source not found at " ++ cliPath)
  | some content =>
    let c := addEmbeddedImports fs content sourceDir
    let c := if targetPlatform == "windows" then applyWindowsPatches c tc else c
    let c := applyCommonPatches c tc
    let baseName := basenameNoJs entryPoint
    let preparedPath := pathJoin sourceDir
      (if targetPlatform == "windows" then baseName ++ "-windows-prepared.js"
       else baseName ++ "-prepared.js")
    .ok (preparedPath, c)

-- ═══════════════════════════════════════════════════════════════════════════
-- Downloader: manifest cache
-- ═══════════════════════════════════════════════════════════════════════════

/-- JSON values, restricted to the fragment the manifest protocol uses
(`JSON.parse` / `JSON.stringify` are platform primitives; the model stores
parsed values). -/
inductive Json where
  | null
  | str (s : String)
  | obj (fields : List (String × Json))

/-- The manifest record assembled by `downloadFromNpm` (§ smart caching). -/
structure Manifest where
  packageName : String
  version : String
  shasum : Option String
  tarball : String
  downloadedAt : String
  extractDir : String
deriving Repr, DecidableEq

/-- `JSON.stringify` of the manifest object: keys in insertion order, an
`undefined` shasum omitted. -/
def manifestToJson (m : Manifest) : Json :=
  .obj ([("packageName", .str m.packageName), ("version", .str m.version)] ++
    (match m.shasum with
     | some s => [("shasum", Json.str s)]
     | none => []) ++
    [("tarball", .str m.tarball), ("downloadedAt", .str m.downloadedAt),
     ("extractDir", .str m.extractDir)])

/-- Recover a manifest record from its JSON (the inverse direction of the
round-trip property). -/
def manifestOfJson (j : Json) : Option Manifest :=
  match j with
  | .obj fields =>
    match List.lookup "packageName" fields, List.lookup "version" fields,
        List.lookup "tarball" fields, List.lookup "downloadedAt" fields,
        List.lookup "extractDir" fields with
    | some (.str p), some (.str v), some (.str t), some (.str d),
        some (.str e) =>
      some { packageName := p, version := v,
             shasum := match List.lookup "shasum" fields with
                       | some (.str s) => some s
                       | _ => none,
             tarball := t, downloadedAt := d, extractDir := e }
    | _, _, _, _, _ => none
  | _ => none

/-- JavaScript member access `j.k`: `undefined` on non-objects and missing
keys. -/
def jsonField (j : Json) (k : String) : Option Json :=
  match j with
  | .obj fields => List.lookup k fields
  | _ => none

/-- JavaScript truthiness of a JSON value. -/
def jsonTruthyV : Json → Bool
  | .null => false
  | .str s => !s.isEmpty
  | .obj _ => true

/-- JavaScript truthiness of a possibly-`undefined` JSON value. -/
def jsonTruthy : Option Json → Bool
  | none => false
  | some v => jsonTruthyV v

/-- JavaScript strict equality `v === t` of a JSON value against a string. -/
def jsStrictEqStr (v : Json) (t : String) : Bool :=
  match v with
  | .str s => s == t
  | _ => false

/-- `v === t` where `v` may be `undefined`. -/
def jsEqStr (v : Option Json) (t : String) : Bool :=
  match v with
  | some w => jsStrictEqStr w t
  | none => false

/-- JavaScript string interpolation of a possibly-`undefined` JSON value. -/
def jsShow : Option Json → String
  | none => "undefined"
  | some .null => "null"
  | some (.str s) => s
  | some (.obj _) => "[object Object]"

/-- The file system seen by the downloader: JSON files by path, plus the
set of existing directories. -/
structure Fs where
  files : List (String × Json)
  dirs : List String

/-- `fs.existsSync` on a directory path. -/
def dirExists (fs : Fs) (d : String) : Bool := fs.dirs.contains d

/-- The fixed manifest filename. -/
def MANIFEST_FILENAME : String := ".atomcli-manifest.json"

/-- `readManifest(destDir)`: parse the manifest file; a missing or
unreadable/corrupt file is `none`. -/
def readManifest (fs : Fs) (destDir : String) : Option Json :=
  List.lookup (pathJoin destDir MANIFEST_FILENAME) fs.files

/-- Insert-or-overwrite a file in the store (`fs.writeFileSync`). -/
def upsert (k : String) (v : Json) : List (String × Json) → List (String × Json)
  | [] => [(k, v)]
  | kv :: rest =>
    if kv.1 == k then (k, v) :: rest else kv :: upsert k v rest

/-- `writeManifest(destDir, data)`: create `destDir` if needed and write
the serialized manifest to the fixed filename inside it. -/
def writeManifest (fs : Fs) (destDir : String) (m : Manifest) : Fs :=
  { files := upsert (pathJoin destDir MANIFEST_FILENAME) (manifestToJson m)
      fs.files,
    dirs := if fs.dirs.contains destDir then fs.dirs else destDir :: fs.dirs }

/-- The verdict record of `checkIfUpToDate`. -/
structure CacheCheck where
  upToDate : Bool
  localVersion : Option Json
  reason : String

/-- The shasum integrity condition
`manifest.shasum && remoteShasum && manifest.shasum !== remoteShasum`. -/
def shaMismatch (shaF : Option Json) (remote : Option String) : Bool :=
  match shaF, remote with
  | some sv, some rs => jsonTruthyV sv && !rs.isEmpty && !(jsStrictEqStr sv rs)
  | _, _ => false

/-- `checkIfUpToDate(destDir, packageName, remoteVersion, remoteShasum)`:
the conjunctive cache-validity protocol, with its condition-specific
reason strings. -/
def checkIfUpToDate (fs : Fs) (destDir packageName remoteVersion : String)
    (remoteShasum : Option String) : CacheCheck :=
  let manifest := readManifest fs destDir
  match manifest with
  | none => ⟨false, none, "No local manifest found"⟩
  | some j =>
    if !(jsonTruthyV j) then ⟨false, none, "No local manifest found"⟩
    else
      let pkgF := jsonField j "packageName"
      let verF := jsonField j "version"
      let shaF := jsonField j "shasum"
      if !(jsEqStr pkgF packageName) then
        ⟨false, verF, "Different package (local: " ++ jsShow pkgF ++
          ", remote: " ++ packageName ++ ")"⟩
      else if !(jsEqStr verF remoteVersion) then
        ⟨false, verF, "Version mismatch (local: " ++ jsShow verF ++
          ", remote: " ++ remoteVersion ++ ")"⟩
      else if shaMismatch shaF remoteShasum then
        ⟨false, verF, "Checksum mismatch (package may have been republished)"⟩
      else if !(dirExists fs (pathJoin destDir "package")) then
        ⟨false, verF, "Extracted files missing"⟩
      else
        ⟨true, verF, "Local version matches remote"⟩

-- ═══════════════════════════════════════════════════════════════════════════
-- Downloader: transfer and npm pipeline
-- ═══════════════════════════════════════════════════════════════════════════

/-- `toLowerCase`, written as a character map so it evaluates by
reduction. -/
def lowerStr (s : String) : String := ⟨s.data.map Char.toLower⟩

/-- `verifyChecksum`: case-insensitive comparison of the streamed hash of
the file (supplied by the hashing oracle) with the expected digest. -/
def verifyChecksum (actualHash expected : String) : Bool :=
  lowerStr actualHash == lowerStr expected

/-- How one `downloadFile` invocation can settle, following the handlers in
the source: a request error before any response; a non-2xx/non-redirect
status (rejected before the write stream is created); a redirect (the
recursive call); a 30-second timeout before any response; a 30-second
timeout after part of the body has been streamed to disk (the handler
destroys the request and rejects, with no unlink); a write-stream error
(the only handler that unlinks the partial file); completion. -/
inductive DlOutcome where
  | requestError (msg : String)
  | httpError (status : Nat) (statusMessage : String)
  | redirect (next : DlOutcome)
  | timeoutNoResponse
  | timeoutMidStream
  | writeStreamError (msg : String)
  | completed

/-- The settled state of one `downloadFile` call: the promise outcome and
whether a (partial) file is left at `destPath`. -/
structure DlResult where
  promise : Except String Unit
  destFileExists : Bool
  destFilePartial : Bool

/-- `downloadFile(url, destPath, onProgress)` as a function of how the
transfer unfolds (assuming no pre-existing file at `destPath`). -/
def downloadFile : DlOutcome → DlResult
  | .requestError msg => ⟨.error msg, false, false⟩
  | .httpError status statusMessage =>
    ⟨.error ("HTTP " ++ toString status ++ ": " ++ statusMessage), false, false⟩
  | .redirect next => downloadFile next
  | .timeoutNoResponse => ⟨.error "Download timeout", false, false⟩
  | .timeoutMidStream => ⟨.error "Download timeout", true, true⟩
  | .writeStreamError msg => ⟨.error msg, false, false⟩
  | .completed => ⟨.ok (), true, false⟩

/-- Whether the transfer (through any redirects) ends in a mid-stream
timeout. -/
def endsInMidStreamTimeout : DlOutcome → Bool
  | .redirect next => endsInMidStreamTimeout next
  | .timeoutMidStream => true
  | _ => false

/-- The remote-registry answer consumed by `downloadFromNpm` (network
oracle for `getNpmPackageVersionInfo`). -/
structure RemoteInfo where
  version : String
  shasum : Option String
  tarball : Option String

/-- Side effects of one `downloadFromNpm` run, in order. -/
inductive NpmEffect where
  | download (url path : String)
  | deleteFile (path : String)
  | removeDir (path : String)
  | extract (tarball destDir : String)
  | writeManifestEff (destDir : String) (m : Manifest)
deriving Repr, DecidableEq

/-- The value returned by `downloadFromNpm` (the fields the claims use). -/
structure NpmResult where
  name : String
  version : String
  skipped : Bool
  reason : Option String
deriving Repr, DecidableEq

/-- `downloadFromNpm(packageName, destDir, {version, force})`, as a
function of the remote answer, the transfer outcome (`downloadErr`), the
streamed sha1 of the downloaded tarball (`fileHash`), the current time and
the file system; returns the promise outcome and the ordered effects. -/
def downloadFromNpm (remote : RemoteInfo) (downloadErr : Option String)
    (fileHash now : String) (fs : Fs) (packageName destDir : String)
    (force : Bool) : Except String NpmResult × List NpmEffect :=
  let targetVersion := remote.version
  let remoteShasum := remote.shasum
  match remote.tarball with
  | none =>
    (.error ("No tarball found for " ++ packageName ++ "@" ++ targetVersion),
     [])
  | some tarballUrl =>
    let cacheCheck := checkIfUpToDate fs destDir packageName targetVersion
      remoteShasum
    if !force && cacheCheck.upToDate then
      (.ok { name := packageName, version := targetVersion, skipped := true,
             reason := some cacheCheck.reason }, [])
    else
      let tarballPath := pathJoin destDir
        (jsReplaceOnce packageName "/" "-" ++ "-" ++ targetVersion ++ ".tgz")
      match downloadErr with
      | some e => (.error e, [.download tarballUrl tarballPath])
      | none =>
        if strTruthy remoteShasum &&
            !(verifyChecksum fileHash (remoteShasum.getD "")) then
          (.error ("Checksum verification failed for " ++ packageName ++ "@" ++
            targetVersion),
           [.download tarballUrl tarballPath, .deleteFile tarballPath])
        else
          let extractDir := pathJoin destDir "package"
          let m : Manifest :=
            { packageName := packageName, version := targetVersion,
              shasum := remoteShasum, tarball := tarballUrl,
              downloadedAt := now, extractDir := extractDir }
          (.ok { name := packageName, version := targetVersion,
                 skipped := false, reason := none },
           [.download tarballUrl tarballPath] ++
           (if dirExists fs extractDir then [.removeDir extractDir] else []) ++
           [.extract tarballPath destDir, .writeManifestEff destDir m,
            .deleteFile tarballPath])

-- ═══════════════════════════════════════════════════════════════════════════
-- Builder: batch orchestration
-- ═══════════════════════════════════════════════════════════════════════════

/-- The success value resolved by one `buildTarget` call. -/
structure BuildOk where
  target : String
  toolId : String
  output : String
  elapsed : String
  size : Nat
  sizeMB : String
deriving Repr, DecidableEq

/-- One entry of the `buildTargets` result array: either a resolved
`buildTarget` value (`success: true`) or the captured failure
`{success: false, target, error}`. -/
inductive TargetResult where
  | ok (r : BuildOk)
  | failed (target : String) (error : String)
deriving Repr, DecidableEq

/-- The `for … of` loop of `buildTargets`, pushing one entry per target
onto the accumulated results. `runOne` is the `buildTarget` oracle. -/
def buildTargetsGo (runOne : String → Except String BuildOk)
    (results : List TargetResult) : List String → List TargetResult
  | [] => results
  | id :: rest =>
    buildTargetsGo runOne
      (results ++ [match runOne id with
                   | .ok r => .ok r
                   | .error e => .failed id e]) rest

/-- `buildTargets(targetIds, …)`: sequential, best-effort batch. -/
def buildTargets (runOne : String → Except String BuildOk)
    (targetIds : List String) : List TargetResult :=
  buildTargetsGo runOne [] targetIds

-- ═══════════════════════════════════════════════════════════════════════════
-- Helper lemmas
-- ═══════════════════════════════════════════════════════════════════════════

/-- Kernel-friendly string prefix test. -/
def strStartsWith (s pre : String) : Bool := pre.data.isPrefixOf s.data

/-- Kernel-friendly string suffix test. -/
def strEndsWith (s suf : String) : Bool := suf.data.isSuffixOf s.data

theorem if_isEmpty_eq (s : String) : (if s.isEmpty then "" else s) = s := by
  by_cases h : s.isEmpty
  · simp [h, (String.isEmpty_iff s).mp h]
  · simp [h]

theorem buildTargetsGo_eq (runOne : String → Except String BuildOk) :
    ∀ (ids : List String) (acc : List TargetResult),
      buildTargetsGo runOne acc ids =
        acc ++ ids.map (fun id =>
          match runOne id with
          | .ok r => TargetResult.ok r
          | .error e => TargetResult.failed id e) := by
  intro ids
  induction ids with
  | nil => intro acc; simp [buildTargetsGo]
  | cons id rest ih =>
    intro acc
    simp [buildTargetsGo, ih]

-- ═══════════════════════════════════════════════════════════════════════════
-- Claim theorems
-- ═══════════════════════════════════════════════════════════════════════════

/-- C3: for every tool id and tool configuration, `generateBuildTargets`
produces one concrete target per template, in template order, whose
`output` is exactly `binaryName ++ "-" ++ targetId ++ extension` with the
binary name defaulting to the tool id; in particular for the codex
configuration the `windows-x64` output is `codex-windows-x64.exe` (ending
in `.exe`) and the `linux-arm64` output is `codex-linux-arm64` (no
extension), and the default applies when the configuration omits a binary
name. -/
theorem C3_generateBuildTargets_outputs (toolId : String)
    (tc : Option ToolConfig) :
    generateBuildTargets toolId tc =
      BUILD_TARGET_TEMPLATES.map (fun it =>
        (it.1, { it.2 with
          output := jsOr (buildField BuildConfig.binaryName tc) toolId ++
            "-" ++ it.1 ++ it.2.extension })) ∧
    (List.lookup "windows-x64" (generateBuildTargets "codex"
        (some { build := some { binaryName := some "codex" } }))).map
      BuildTarget.output = some "codex-windows-x64.exe" ∧
    (List.lookup "linux-arm64" (generateBuildTargets "codex"
        (some { build := some { binaryName := some "codex" } }))).map
      BuildTarget.output = some "codex-linux-arm64" ∧
    (List.lookup "linux-arm64" (generateBuildTargets "codex" none)).map
      BuildTarget.output = some "codex-linux-arm64" ∧
    strEndsWith "codex-windows-x64.exe" ".exe" = true := by
  refine ⟨?_, by decide, by decide, by decide, by decide⟩
  simp [generateBuildTargets, if_isEmpty_eq]

/-- C5: if the configured entry-point file (default `cli.js`) does not
exist in the source directory, `prepareSource` raises the configuration
error `CLI source not found at …` and performs no write (the error branch
carries no output file). -/
theorem C5_prepareSource_missing_entry (fs : FileSys)
    (sourceDir targetPlatform : String) (tc : Option ToolConfig)
    (h : List.lookup (pathJoin sourceDir (entryPointOf tc)) fs = none) :
    prepareSource fs sourceDir targetPlatform tc =
      .error ("CLI source not found at " ++
        pathJoin sourceDir (entryPointOf tc)) := by
  simp only [prepareSource, h]

/-- Witness for C5 at a concrete empty source directory. -/
theorem C5_witness :
    prepareSource ([] : FileSys) "src" "linux" none =
      .error "CLI source not found at src/cli.js" :=
  C5_prepareSource_missing_entry ([] : FileSys) "src" "linux" none rfl

/-- C6: `buildTargets` processes the targets sequentially in list order
and returns exactly one result entry per requested target id; a failing
`buildTarget` call is captured as a `{success: false, target, error}`
entry and the remaining targets are still attempted. -/
theorem C6_buildTargets_best_effort (runOne : String → Except String BuildOk)
    (targetIds : List String) :
    (buildTargets runOne targetIds).length = targetIds.length ∧
    (∀ (i : Nat) (hi : i < targetIds.length)
        (hr : i < (buildTargets runOne targetIds).length),
      (buildTargets runOne targetIds).get ⟨i, hr⟩ =
        match runOne (targetIds.get ⟨i, hi⟩) with
        | .ok r => TargetResult.ok r
        | .error e => TargetResult.failed (targetIds.get ⟨i, hi⟩) e) := by
  have hb := buildTargetsGo_eq runOne targetIds []
  constructor
  · simp [buildTargets, hb]
  · intro i hi hr
    simp [buildTargets, hb, List.getElem_map]

/-- Concrete oracle for the C6 witness: the first target fails to compile,
the second succeeds. -/
def c6RunOne : String → Except String BuildOk := fun id =>
  if id = "a" then .error "compile failed"
  else .ok { target := id, toolId := "claude-code", output := "o",
             elapsed := "0.1s", size := 1, sizeMB := "0.0" }

/-- Witness for C6: a failing first target is captured and the second
target is still built. -/
theorem C6_witness :
    (buildTargets c6RunOne ["a", "b"]).length = 2 ∧
    (buildTargets c6RunOne ["a", "b"]).get ⟨0, by decide⟩ =
      TargetResult.failed "a" "compile failed" ∧
    (buildTargets c6RunOne ["a", "b"]).get ⟨1, by decide⟩ =
      TargetResult.ok { target := "b", toolId := "claude-code", output := "o",
                        elapsed := "0.1s", size := 1, sizeMB := "0.0" } := by
  obtain ⟨h1, h2⟩ := C6_buildTargets_best_effort c6RunOne ["a", "b"]
  refine ⟨h1, ?_, ?_⟩
  · have := h2 0 (by decide) (by decide)
    simpa [c6RunOne] using this
  · have := h2 1 (by decide) (by decide)
    simpa [c6RunOne] using this

/-- C8: `getCurrentTarget` maps the host OS (`win32` → windows, `darwin` →
macos, everything else → linux), returns the id of the first target whose
platform, architecture and `standard` variant match the host, falls back
to `linux-x64` when nothing matches, and on a Windows x64 host returns
`windows-x64`, which begins with `windows-`. -/
theorem C8_getCurrentTarget_spec (osPlatform osArch : String) :
    (hostPlatformOf "win32" = "windows" ∧ hostPlatformOf "darwin" = "macos" ∧
      (osPlatform ≠ "win32" → osPlatform ≠ "darwin" →
        hostPlatformOf osPlatform = "linux")) ∧
    (∀ id t,
      BUILD_TARGETS.find? (currentTargetPred (hostPlatformOf osPlatform)
        osArch) = some (id, t) →
      getCurrentTarget osPlatform osArch = id ∧
        t.platform = hostPlatformOf osPlatform ∧ t.arch = osArch ∧
        t.variant = "standard") ∧
    (BUILD_TARGETS.find? (currentTargetPred (hostPlatformOf osPlatform)
        osArch) = none →
      getCurrentTarget osPlatform osArch = "linux-x64") ∧
    getCurrentTarget "win32" "x64" = "windows-x64" ∧
    strStartsWith (getCurrentTarget "win32" "x64") "windows-" = true := by
  refine ⟨⟨rfl, rfl, ?_⟩, ?_, ?_, by decide, by decide⟩
  · intro h1 h2
    simp [hostPlatformOf, h1, h2]
  · intro id t h
    have hp := List.find?_some h
    simp only [currentTargetPred, Bool.and_eq_true, beq_iff_eq] at hp
    exact ⟨by simp [getCurrentTarget, h], hp.1.1, hp.1.2, hp.2⟩
  · intro h
    simp [getCurrentTarget, h]

/-- Witness for C8 on a Windows x64 host: the matching entry is found and
is the `windows-x64` target. -/
theorem C8_witness :
    getCurrentTarget "win32" "x64" = "windows-x64" ∧
    hostPlatformOf "freebsd" = "linux" := by
  obtain ⟨⟨_, _, hother⟩, _, _, hwin, _⟩ := C8_getCurrentTarget_spec
    "freebsd" "x64"
  exact ⟨hwin, hother (by decide) (by decide)⟩

theorem jsEqStr_iff (v : Option Json) (t : String) :
    jsEqStr v t = true ↔ v = some (.str t) := by
  cases v with
  | none => simp [jsEqStr]
  | some w =>
    cases w with
    | null => simp [jsEqStr, jsStrictEqStr]
    | str s => simp [jsEqStr, jsStrictEqStr]
    | obj fields => simp [jsEqStr, jsStrictEqStr]

theorem shaMismatch_false_iff (shaF : Option Json) (remote : Option String) :
    shaMismatch shaF remote = false ↔
      (jsonTruthy shaF = false ∨ strTruthy remote = false ∨
        ∃ s, shaF = some (.str s) ∧ remote = some s) := by
  cases shaF with
  | none => simp [shaMismatch, jsonTruthy]
  | some v =>
    cases remote with
    | none => simp [shaMismatch, strTruthy]
    | some rs =>
      cases v with
      | null => simp [shaMismatch, jsonTruthy, jsonTruthyV]
      | str s =>
        simp only [shaMismatch, jsonTruthy, jsonTruthyV, strTruthy,
          jsStrictEqStr, Option.some.injEq, Json.str.injEq]
        by_cases hs : s.isEmpty <;> by_cases hr : rs.isEmpty <;>
          by_cases he : s = rs <;> (simp [hs, hr, he]; try tauto)
      | obj fields =>
        simp [shaMismatch, jsonTruthy, jsonTruthyV, strTruthy, jsStrictEqStr]

theorem strStartsWith_append (p x : String) :
    strStartsWith (p ++ x) p = true := by
  simp [strStartsWith, List.isPrefixOf_iff_prefix]

/-- The specification's conjunctive description of a cache hit (written
from the spec's words, to be compared with `checkIfUpToDate`): a truthy
manifest whose package name and version fields equal the requested ones,
whose shasum is absent (falsy) on either side or equal on both, with the
`package` extraction directory existing on disk. -/
def upToDateSpec (fs : Fs) (destDir packageName remoteVersion : String)
    (remoteShasum : Option String) : Prop :=
  ∃ j, readManifest fs destDir = some j ∧ jsonTruthyV j = true ∧
    jsonField j "packageName" = some (.str packageName) ∧
    jsonField j "version" = some (.str remoteVersion) ∧
    (jsonTruthy (jsonField j "shasum") = false ∨
      strTruthy remoteShasum = false ∨
      ∃ s, jsonField j "shasum" = some (.str s) ∧ remoteShasum = some s) ∧
    dirExists fs (pathJoin destDir "package") = true

/-- C1: `checkIfUpToDate` returns `upToDate = true` exactly when the
conjunction of the spec's conditions holds; each single failing condition
produces `upToDate = false` with its own reason string, and the six reason
shapes are pairwise distinct (no one is a prefix of another). -/
theorem C1_checkIfUpToDate_conjunction (fs : Fs)
    (destDir packageName remoteVersion : String)
    (remoteShasum : Option String) :
    ((checkIfUpToDate fs destDir packageName remoteVersion
        remoteShasum).upToDate = true ↔
      upToDateSpec fs destDir packageName remoteVersion remoteShasum) ∧
    ((checkIfUpToDate fs destDir packageName remoteVersion
        remoteShasum).upToDate = true →
      (checkIfUpToDate fs destDir packageName remoteVersion
        remoteShasum).reason = "Local version matches remote") ∧
    ((readManifest fs destDir = none ∨
        (∃ j, readManifest fs destDir = some j ∧ jsonTruthyV j = false)) →
      (checkIfUpToDate fs destDir packageName remoteVersion
        remoteShasum).upToDate = false ∧
      (checkIfUpToDate fs destDir packageName remoteVersion
        remoteShasum).reason = "No local manifest found") ∧
    (∀ j, readManifest fs destDir = some j → jsonTruthyV j = true →
      jsEqStr (jsonField j "packageName") packageName = false →
      (checkIfUpToDate fs destDir packageName remoteVersion
        remoteShasum).upToDate = false ∧
      (checkIfUpToDate fs destDir packageName remoteVersion
        remoteShasum).reason =
        "Different package (local: " ++ jsShow (jsonField j "packageName") ++
          ", remote: " ++ packageName ++ ")") ∧
    (∀ j, readManifest fs destDir = some j → jsonTruthyV j = true →
      jsEqStr (jsonField j "packageName") packageName = true →
      jsEqStr (jsonField j "version") remoteVersion = false →
      (checkIfUpToDate fs destDir packageName remoteVersion
        remoteShasum).upToDate = false ∧
      (checkIfUpToDate fs destDir packageName remoteVersion
        remoteShasum).reason =
        "Version mismatch (local: " ++ jsShow (jsonField j "version") ++
          ", remote: " ++ remoteVersion ++ ")") ∧
    (∀ j, readManifest fs destDir = some j → jsonTruthyV j = true →
      jsEqStr (jsonField j "packageName") packageName = true →
      jsEqStr (jsonField j "version") remoteVersion = true →
      shaMismatch (jsonField j "shasum") remoteShasum = true →
      (checkIfUpToDate fs destDir packageName remoteVersion
        remoteShasum).upToDate = false ∧
      (checkIfUpToDate fs destDir packageName remoteVersion
        remoteShasum).reason =
        "Checksum mismatch (package may have been republished)") ∧
    (∀ j, readManifest fs destDir = some j → jsonTruthyV j = true →
      jsEqStr (jsonField j "packageName") packageName = true →
      jsEqStr (jsonField j "version") remoteVersion = true →
      shaMismatch (jsonField j "shasum") remoteShasum = false →
      dirExists fs (pathJoin destDir "package") = false →
      (checkIfUpToDate fs destDir packageName remoteVersion
        remoteShasum).upToDate = false ∧
      (checkIfUpToDate fs destDir packageName remoteVersion
        remoteShasum).reason = "Extracted files missing") ∧
    List.Pairwise (fun a b => a ≠ b ∧ strStartsWith a b = false ∧
        strStartsWith b a = false)
      ["No local manifest found", "Different package (local: ",
       "Version mismatch (local: ",
       "Checksum mismatch (package may have been republished)",
       "Extracted files missing", "Local version matches remote"] := by
  refine ⟨?_, ?_, ?_, ?_, ?_, ?_, ?_, by decide⟩
  case refine_3 =>
    intro h
    rcases h with hnone | ⟨j, hj, ht⟩
    · simp [checkIfUpToDate, hnone]
    · simp [checkIfUpToDate, hj, ht]
  case refine_4 =>
    intro j hj ht hp
    simp [checkIfUpToDate, hj, ht, hp]
  case refine_5 =>
    intro j hj ht hp hv
    simp [checkIfUpToDate, hj, ht, hp, hv]
  case refine_6 =>
    intro j hj ht hp hv hs
    simp [checkIfUpToDate, hj, ht, hp, hv, hs]
  case refine_7 =>
    intro j hj ht hp hv hs hd
    simp [checkIfUpToDate, hj, ht, hp, hv, hs, hd]
  case refine_2 =>
    cases hm : readManifest fs destDir with
    | none => simp [checkIfUpToDate, hm]
    | some j =>
      by_cases ht : jsonTruthyV j
      · by_cases hp : jsEqStr (jsonField j "packageName") packageName
        · by_cases hv : jsEqStr (jsonField j "version") remoteVersion
          · by_cases hs : shaMismatch (jsonField j "shasum") remoteShasum
            · simp [checkIfUpToDate, hm, ht, hp, hv, hs]
            · by_cases hd : dirExists fs (pathJoin destDir "package")
              · simp [checkIfUpToDate, hm, ht, hp, hv, hs, hd]
              · simp [checkIfUpToDate, hm, ht, hp, hv, hs, hd]
          · simp [checkIfUpToDate, hm, ht, hp, hv]
        · simp [checkIfUpToDate, hm, ht, hp]
      · simp [checkIfUpToDate, hm, ht]
  case refine_1 =>
    cases hm : readManifest fs destDir with
    | none => simp [checkIfUpToDate, hm, upToDateSpec]
    | some j =>
      by_cases ht : jsonTruthyV j
      · by_cases hp : jsEqStr (jsonField j "packageName") packageName
        · by_cases hv : jsEqStr (jsonField j "version") remoteVersion
          · by_cases hs : shaMismatch (jsonField j "shasum") remoteShasum
            · have hu : (checkIfUpToDate fs destDir packageName remoteVersion
                  remoteShasum).upToDate = false := by
                simp [checkIfUpToDate, hm, ht, hp, hv, hs]
              simp only [hu, Bool.false_eq_true, false_iff]
              rintro ⟨j2, hj2, _, _, _, hsha2, _⟩
              rw [hm] at hj2
              obtain rfl : j = j2 := by injection hj2
              have hfalse := (shaMismatch_false_iff (jsonField j "shasum")
                remoteShasum).mpr hsha2
              rw [hs] at hfalse
              simp at hfalse
            · have hs2 : shaMismatch (jsonField j "shasum") remoteShasum =
                  false := by simpa using hs
              by_cases hd : dirExists fs (pathJoin destDir "package")
              · have hu : (checkIfUpToDate fs destDir packageName remoteVersion
                    remoteShasum).upToDate = true := by
                  simp [checkIfUpToDate, hm, ht, hp, hv, hs2, hd]
                simp only [hu, true_iff]
                exact ⟨j, hm, ht, (jsEqStr_iff _ _).mp hp,
                  (jsEqStr_iff _ _).mp hv,
                  (shaMismatch_false_iff _ _).mp hs2, hd⟩
              · have hu : (checkIfUpToDate fs destDir packageName remoteVersion
                    remoteShasum).upToDate = false := by
                  simp [checkIfUpToDate, hm, ht, hp, hv, hs2, hd]
                simp only [hu, Bool.false_eq_true, false_iff]
                rintro ⟨j2, hj2, _, _, _, _, hd2⟩
                exact hd hd2
          · have hu : (checkIfUpToDate fs destDir packageName remoteVersion
                remoteShasum).upToDate = false := by
              simp [checkIfUpToDate, hm, ht, hp, hv]
            simp only [hu, Bool.false_eq_true, false_iff]
            rintro ⟨j2, hj2, _, _, hv2, _, _⟩
            rw [hm] at hj2
            obtain rfl : j = j2 := by injection hj2
            exact hv ((jsEqStr_iff _ _).mpr hv2)
        · have hu : (checkIfUpToDate fs destDir packageName remoteVersion
              remoteShasum).upToDate = false := by
            simp [checkIfUpToDate, hm, ht, hp]
          simp only [hu, Bool.false_eq_true, false_iff]
          rintro ⟨j2, hj2, _, hp2, _, _, _⟩
          rw [hm] at hj2
          obtain rfl : j = j2 := by injection hj2
          exact hp ((jsEqStr_iff _ _).mpr hp2)
      · have hu : (checkIfUpToDate fs destDir packageName remoteVersion
            remoteShasum).upToDate = false := by
          simp [checkIfUpToDate, hm, ht]
        simp only [hu, Bool.false_eq_true, false_iff]
        rintro ⟨j2, hj2, ht2, _, _, _, _⟩
        rw [hm] at hj2
        obtain rfl : j = j2 := by injection hj2
        rw [ht2] at ht
        exact ht rfl

/-- The concrete cached state for the C1 witness: manifest version
`2.0.75` on disk, extraction directory present. -/
def c1Manifest : Manifest :=
  { packageName := "@anthropic-ai/claude-code", version := "2.0.75",
    shasum := some "abc123", tarball := "https://registry.npmjs.org/x.tgz",
    downloadedAt := "2026-01-03T10:30:00Z",
    extractDir := "core/claude-code/package" }

/-- File system for the C1 witness. -/
def c1Fs : Fs :=
  { files := [("core/claude-code/.atomcli-manifest.json",
      manifestToJson c1Manifest)],
    dirs := ["core/claude-code", "core/claude-code/package"] }

/-- Witness for C1: remote version `2.0.76` against local `2.0.75` is out
of date with the version-mismatch reason; the matching remote version is
up to date. -/
theorem C1_witness :
    (checkIfUpToDate c1Fs "core/claude-code" "@anthropic-ai/claude-code"
      "2.0.76" (some "abc123")).upToDate = false ∧
    (checkIfUpToDate c1Fs "core/claude-code" "@anthropic-ai/claude-code"
      "2.0.76" (some "abc123")).reason =
      "Version mismatch (local: 2.0.75, remote: 2.0.76)" ∧
    (checkIfUpToDate c1Fs "core/claude-code" "@anthropic-ai/claude-code"
      "2.0.75" (some "abc123")).upToDate = true := by
  obtain ⟨_, _, _, _, hver, _, _, _⟩ := C1_checkIfUpToDate_conjunction c1Fs
    "core/claude-code" "@anthropic-ai/claude-code" "2.0.76" (some "abc123")
  obtain ⟨hiff, _⟩ := C1_checkIfUpToDate_conjunction c1Fs
    "core/claude-code" "@anthropic-ai/claude-code" "2.0.75" (some "abc123")
  have h := hver (manifestToJson c1Manifest) rfl (by decide) (by decide)
    (by decide)
  refine ⟨h.1, h.2, hiff.mpr ?_⟩
  exact ⟨manifestToJson c1Manifest, rfl, by decide, rfl, rfl,
    Or.inr (Or.inr ⟨"abc123", rfl, rfl⟩), by decide⟩

theorem lookup_upsert (k : String) (v : Json) :
    ∀ l : List (String × Json), List.lookup k (upsert k v l) = some v := by
  intro l
  induction l with
  | nil => simp [upsert, List.lookup]
  | cons kv rest ih =>
    by_cases h : kv.1 == k
    · simp [upsert, h, List.lookup]
    · have h2 : (k == kv.1) = false := by
        simp only [beq_iff_eq] at h
        simp only [beq_eq_false_iff_ne, ne_eq]
        exact fun hk => h hk.symm
      simp [upsert, h, List.lookup, h2, ih]

theorem manifest_codec_round (m : Manifest) :
    manifestOfJson (manifestToJson m) = some m := by
  obtain ⟨p, v, sh, t, d, e⟩ := m
  cases sh <;> simp [manifestToJson, manifestOfJson, List.lookup]

/-- The manifest record used by the C9 counterexample and witness. -/
def c9Manifest : Manifest :=
  { packageName := "@anthropic-ai/claude-code", version := "1.0.24",
    shasum := some "ff00aa", tarball := "https://registry.npmjs.org/t.tgz",
    downloadedAt := "2026-01-03T10:30:00Z", extractDir := "dest/package" }

/-- C9 counterexample: the claim as stated is false. Writing a manifest
into an empty file system and reading it back round-trips, but the
subsequent `checkIfUpToDate` call with the very same package name, version
and shasum returns `upToDate = false` (reason `Extracted files missing`),
because the `package` extraction directory does not exist. -/
theorem C9_counterexample :
    readManifest (writeManifest ⟨[], []⟩ "dest" c9Manifest) "dest" =
      some (manifestToJson c9Manifest) ∧
    manifestOfJson (manifestToJson c9Manifest) = some c9Manifest ∧
    (checkIfUpToDate (writeManifest ⟨[], []⟩ "dest" c9Manifest) "dest"
      c9Manifest.packageName c9Manifest.version
      c9Manifest.shasum).upToDate = false ∧
    (checkIfUpToDate (writeManifest ⟨[], []⟩ "dest" c9Manifest) "dest"
      c9Manifest.packageName c9Manifest.version
      c9Manifest.shasum).reason = "Extracted files missing" :=
  ⟨rfl, rfl, rfl, rfl⟩

/-- C9 (amended): writing a manifest and reading it back yields the
serialized record, which decodes field-for-field to the record written;
and provided the `package` extraction directory under the destination
exists on disk, a subsequent `checkIfUpToDate` with the same package name,
version and shasum returns `upToDate = true`. -/
theorem C9_manifest_round_trip (fs : Fs) (destDir : String) (m : Manifest)
    (hdir : dirExists (writeManifest fs destDir m)
      (pathJoin destDir "package") = true) :
    readManifest (writeManifest fs destDir m) destDir =
      some (manifestToJson m) ∧
    manifestOfJson (manifestToJson m) = some m ∧
    (checkIfUpToDate (writeManifest fs destDir m) destDir m.packageName
      m.version m.shasum).upToDate = true ∧
    (checkIfUpToDate (writeManifest fs destDir m) destDir m.packageName
      m.version m.shasum).reason = "Local version matches remote" := by
  have hr : readManifest (writeManifest fs destDir m) destDir =
      some (manifestToJson m) := by
    simp [readManifest, writeManifest, lookup_upsert]
  refine ⟨hr, manifest_codec_round m, ?_, ?_⟩ <;>
  · obtain ⟨p, v, sh, t, d, e⟩ := m
    cases sh <;>
      simp_all [checkIfUpToDate, manifestToJson, jsonField, jsonTruthyV,
        jsEqStr, jsStrictEqStr, shaMismatch, List.lookup]

/-- Witness for the amended C9: with the extraction directory present the
round trip yields an up-to-date verdict. -/
theorem C9_witness :
    (checkIfUpToDate (writeManifest ⟨[], ["dest/package"]⟩ "dest" c9Manifest)
      "dest" c9Manifest.packageName c9Manifest.version
      c9Manifest.shasum).upToDate = true ∧
    manifestOfJson (manifestToJson c9Manifest) = some c9Manifest := by
  have h := C9_manifest_round_trip ⟨[], ["dest/package"]⟩ "dest" c9Manifest
    (by decide)
  exact ⟨h.2.2.1, h.2.1⟩

/-- C2 counterexample: the claim as stated is false. When the 30-second
timeout fires after part of the body has been streamed to disk, the
promise rejects with `Download timeout` but the partially written
destination file is left in place (only the write-stream error handler
unlinks it). -/
theorem C2_counterexample :
    (downloadFile DlOutcome.timeoutMidStream).promise =
      .error "Download timeout" ∧
    (downloadFile DlOutcome.timeoutMidStream).destFileExists = true ∧
    (downloadFile DlOutcome.timeoutMidStream).destFilePartial = true :=
  ⟨rfl, rfl, rfl⟩

/-- C2 (amended): whenever `downloadFile` rejects through any chain of
redirects, no destination file is left behind — an HTTP non-200 rejects
before the write stream is created, and a write-stream error unlinks the
partial file before rejecting — *except* for the timeout on a stalled
(partially streamed) download, which rejects with `Download timeout` while
leaving the partial file in place. -/
theorem C2_download_cleanup (o : DlOutcome) :
    (∀ e, (downloadFile o).promise = .error e →
      endsInMidStreamTimeout o = false →
      (downloadFile o).destFileExists = false) ∧
    (endsInMidStreamTimeout o = true →
      (downloadFile o).promise = .error "Download timeout" ∧
      (downloadFile o).destFileExists = true ∧
      (downloadFile o).destFilePartial = true) := by
  induction o with
  | requestError msg => simp [downloadFile, endsInMidStreamTimeout]
  | httpError status statusMessage =>
    simp [downloadFile, endsInMidStreamTimeout]
  | redirect next ih => simpa [downloadFile, endsInMidStreamTimeout] using ih
  | timeoutNoResponse => simp [downloadFile, endsInMidStreamTimeout]
  | timeoutMidStream => simp [downloadFile, endsInMidStreamTimeout]
  | writeStreamError msg => simp [downloadFile, endsInMidStreamTimeout]
  | completed => simp [downloadFile, endsInMidStreamTimeout]

/-- Witness for the amended C2: a write-stream error and an HTTP 404 leave
no destination file behind. -/
theorem C2_witness :
    (downloadFile (DlOutcome.writeStreamError "EIO")).destFileExists =
      false ∧
    (downloadFile (DlOutcome.redirect (DlOutcome.httpError 404
      "Not Found"))).destFileExists = false :=
  ⟨(C2_download_cleanup (DlOutcome.writeStreamError "EIO")).1 "EIO" rfl rfl,
   (C2_download_cleanup (DlOutcome.redirect (DlOutcome.httpError 404
     "Not Found"))).1 "HTTP 404: Not Found" rfl rfl⟩

/-- C7: when the remote shasum is known, the cache is stale (or `force` is
set) and the streamed hash of the downloaded tarball does not verify
against it, `downloadFromNpm` rejects with the checksum-verification
error; its effect trace is exactly one download followed by the deletion
of the downloaded tarball — the artifact is never extracted, no manifest
is written, and the download is not retried. -/
theorem C7_checksum_mismatch (remote : RemoteInfo) (fileHash now : String)
    (fs : Fs) (packageName destDir : String) (force : Bool) (url : String)
    (hurl : remote.tarball = some url)
    (hnoskip : (!force && (checkIfUpToDate fs destDir packageName
      remote.version remote.shasum).upToDate) = false)
    (hsha : strTruthy remote.shasum = true)
    (hbad : verifyChecksum fileHash (remote.shasum.getD "") = false) :
    downloadFromNpm remote none fileHash now fs packageName destDir force =
      (.error ("Checksum verification failed for " ++ packageName ++ "@" ++
        remote.version),
       [.download url (pathJoin destDir (jsReplaceOnce packageName "/" "-" ++
          "-" ++ remote.version ++ ".tgz")),
        .deleteFile (pathJoin destDir (jsReplaceOnce packageName "/" "-" ++
          "-" ++ remote.version ++ ".tgz"))]) ∧
    (∀ e ∈ (downloadFromNpm remote none fileHash now fs packageName destDir
        force).2,
      (match e with
       | NpmEffect.extract _ _ => False
       | NpmEffect.writeManifestEff _ _ => False
       | _ => True)) ∧
    (downloadFromNpm remote none fileHash now fs packageName destDir
      force).2.countP (fun e =>
        match e with
        | NpmEffect.download _ _ => true
        | _ => false) = 1 := by
  have hmain : downloadFromNpm remote none fileHash now fs packageName
      destDir force =
      (.error ("Checksum verification failed for " ++ packageName ++ "@" ++
        remote.version),
       [.download url (pathJoin destDir (jsReplaceOnce packageName "/" "-" ++
          "-" ++ remote.version ++ ".tgz")),
        .deleteFile (pathJoin destDir (jsReplaceOnce packageName "/" "-" ++
          "-" ++ remote.version ++ ".tgz"))]) := by
    simp [downloadFromNpm, hurl, hnoskip, hsha, hbad]
  refine ⟨hmain, ?_, ?_⟩
  · rw [hmain]
    intro e he
    rcases List.mem_cons.mp he with h | h
    · subst h; trivial
    · rcases List.mem_cons.mp h with h2 | h2
      · subst h2; trivial
      · cases h2
  · rw [hmain]
    rfl

/-- Witness for C7: a scoped package with a bad hash is rejected with the
verification error and a `download`-then-`delete` trace. -/
theorem C7_witness :
    (downloadFromNpm ⟨"1.0.0", some "ABC123", some "https://u.tgz"⟩ none
      "def456" "now" ⟨[], []⟩ "@scope/pkg" "dest" true).1 =
      .error "Checksum verification failed for @scope/pkg@1.0.0" ∧
    (downloadFromNpm ⟨"1.0.0", some "ABC123", some "https://u.tgz"⟩ none
      "def456" "now" ⟨[], []⟩ "@scope/pkg" "dest" true).2 =
      [.download "https://u.tgz" "dest/@scope-pkg-1.0.0.tgz",
       .deleteFile "dest/@scope-pkg-1.0.0.tgz"] := by
  have h := (C7_checksum_mismatch ⟨"1.0.0", some "ABC123", some
    "https://u.tgz"⟩ "def456" "now" ⟨[], []⟩ "@scope/pkg" "dest" true
    "https://u.tgz" rfl (by decide) (by decide) (by decide)).1
  have hfst := congrArg Prod.fst h
  have hsnd := congrArg Prod.snd h
  constructor
  · rw [hfst]
    congr 1
  · rw [hsnd]
    decide

theorem applyFirstMatching_no_match (ps : List (List Pat)) (repl c : String)
    (h : ∀ p ∈ ps, regexTest p c = false) :
    applyFirstMatching ps repl c = c := by
  induction ps with
  | nil => rfl
  | cons p rest ih =>
    have hp := h p (List.mem_cons_self p rest)
    simp only [applyFirstMatching, hp, Bool.false_eq_true, if_false]
    exact ih fun q hq => h q (List.mem_cons_of_mem p hq)

/-- C4: when a patch's expected pattern finds no match, the patching
functions raise no error and report nothing — the substitution is simply
left unapplied (the pipeline equals itself minus that substitution) — and
`prepareSource` still writes a prepared file and reports success whenever
the entry point exists, regardless of any pattern matching. -/
theorem C4_patch_miss_soft (tc : Option ToolConfig) (c : String)
    (fs : FileSys) (sourceDir targetPlatform : String) :
    ((∀ p ∈ entrypointPatterns (envPrefixOf tc),
        regexTest p (stripShebang c) = false) →
      applyCommonPatches c tc =
        bypassShellCheck (injectShellDetection (stripShebang c))) ∧
    (regexTest shellCheckPats
        (injectShellDetection (applyCommonMarker tc (stripShebang c))) =
          false →
      applyCommonPatches c tc =
        injectShellDetection (applyCommonMarker tc (stripShebang c))) ∧
    ((∀ p ∈ entrypointPatterns (envPrefixOf tc),
        regexTest p (winPreMarker c tc) = false) →
      applyWindowsPatches c tc = winPreMarker c tc) ∧
    (List.lookup (pathJoin sourceDir (entryPointOf tc)) fs ≠ none →
      ∃ pPath pContent,
        prepareSource fs sourceDir targetPlatform tc =
          .ok (pPath, pContent)) := by
  refine ⟨?_, ?_, ?_, ?_⟩
  · intro h
    unfold applyCommonPatches applyCommonMarker
    rw [applyFirstMatching_no_match _ _ _ h]
  · intro h
    unfold applyCommonPatches bypassShellCheck
    rw [h]
    simp
  · intro h
    unfold applyWindowsPatches
    exact applyFirstMatching_no_match _ _ _ h
  · intro h
    cases hl : List.lookup (pathJoin sourceDir (entryPointOf tc)) fs with
    | none => exact absurd hl h
    | some content =>
      simp only [prepareSource, hl]
      exact ⟨_, _, rfl⟩

set_option maxRecDepth 100000 in
/-- Witness for C4: a source with no entry-point marker, no minified shell
check and no shebang is patched without error, every miss is silent, and
`prepareSource` reports success. -/
theorem C4_witness :
    applyCommonPatches "console.log(1);\n" none =
      bypassShellCheck (injectShellDetection
        (stripShebang "console.log(1);\n")) ∧
    applyCommonPatches "console.log(1);\n" none =
      injectShellDetection (applyCommonMarker none
        (stripShebang "console.log(1);\n")) ∧
    applyWindowsPatches "console.log(1);\n" none =
      winPreMarker "console.log(1);\n" none ∧
    ∃ pPath pContent,
      prepareSource [("src/cli.js", "console.log(1);\n")] "src" "linux"
        none = .ok (pPath, pContent) := by
  obtain ⟨h1, h2, h3, h4⟩ := C4_patch_miss_soft none "console.log(1);\n"
    [("src/cli.js", "console.log(1);\n")] "src" "linux"
  exact ⟨h1 (by decide), h2 (by decide), h3 (by decide), h4 (by decide)⟩

theorem matchHere_cls_some {p : Char → Bool} {ps : List Pat} {l : List Char}
    {n : Nat} (h : matchHere (.cls p :: ps) l = some n) :
    ∃ x xs m, l = x :: xs ∧ p x = true ∧ matchHere ps xs = some m ∧
      n = m + 1 := by
  cases l with
  | nil => simp [matchHere] at h
  | cons x xs =>
    by_cases hp : p x
    · simp only [matchHere, hp, if_true, Option.map_eq_some'] at h
      obtain ⟨m, hm, hn⟩ := h
      exact ⟨x, xs, m, rfl, hp, hm, hn.symm⟩
    · simp [matchHere, hp] at h

theorem matchHere_lits_some : ∀ (s : List Char) {ps : List Pat}
    {l : List Char} {n : Nat},
    matchHere (s.map Pat.lit ++ ps) l = some n →
    ∃ rest m, l = s ++ rest ∧ matchHere ps rest = some m ∧
      n = s.length + m := by
  intro s
  induction s with
  | nil =>
    intro ps l n h
    exact ⟨l, n, rfl, h, by simp⟩
  | cons c s2 ih =>
    intro ps l n h
    cases l with
    | nil => simp [matchHere] at h
    | cons x xs =>
      by_cases hx : x = c
      · subst hx
        simp only [List.map_cons, List.cons_append, matchHere, if_true,
          Option.map_eq_some'] at h
        obtain ⟨m1, hm1, hn⟩ := h
        obtain ⟨rest, m, hl, hrest, hm⟩ := ih hm1
        refine ⟨rest, m, by simp [hl], hrest, ?_⟩
        simp only [List.length_cons]
        omega
      · simp [matchHere, hx] at h

theorem matchHere_opt_some {p : Char → Bool} {ps : List Pat} {l : List Char}
    {n : Nat} (h : matchHere (.opt p :: ps) l = some n) :
    (∃ x xs m, l = x :: xs ∧ p x = true ∧ matchHere ps xs = some m ∧
      n = m + 1) ∨ matchHere ps l = some n := by
  cases l with
  | nil =>
    right
    simpa [matchHere] using h
  | cons x xs =>
    by_cases hp : p x
    · cases hm : matchHere ps xs with
      | some m =>
        left
        simp only [matchHere, hp, if_true, hm, Option.some.injEq] at h
        exact ⟨x, xs, m, rfl, hp, hm, by omega⟩
      | none =>
        right
        simpa [matchHere, hp, hm] using h
    · right
      simpa [matchHere, hp] using h

/-- The shape of a leading directive matched by the strict-prefix regex:
one quote character, `use strict`, one quote character, an optional
semicolon. -/
def isStrictHead (d : List Char) : Prop :=
  ∃ q1 q2 semi, isQuoteChar q1 = true ∧ isQuoteChar q2 = true ∧
    (semi = ([] : List Char) ∨ semi = [';']) ∧
    d = q1 :: ("use strict".data ++ [q2] ++ semi)

theorem strict_inversion {l : List Char} {n : Nat}
    (h : matchHere strictPats l = some n) :
    ∃ d rest, isStrictHead d ∧ l = d ++ rest ∧ n = d.length := by
  obtain ⟨q1, xs, m1, hl, hq1, h1, hn1⟩ := matchHere_cls_some h
  have h1b : matchHere ("use strict".data.map Pat.lit ++
      [Pat.cls isQuoteChar, Pat.opt (fun c => c == ';')]) xs = some m1 := by
    simpa [litPats] using h1
  obtain ⟨rest1, m2, hxs, h2, hm1⟩ := matchHere_lits_some _ h1b
  obtain ⟨q2, rest2, m3, hrest1, hq2, h3, hm2⟩ := matchHere_cls_some h2
  have hlen : ("use strict".data).length = 10 := rfl
  rw [hlen] at hm1
  rcases matchHere_opt_some h3 with ⟨x, rest3, m4, hrest2, hx, h4, hm3⟩ | h4
  · have hx2 : x = ';' := by simpa using hx
    subst hx2
    have hm4 : (0 : Nat) = m4 := by simpa [matchHere] using h4
    refine ⟨q1 :: ("use strict".data ++ [q2] ++ [';']), rest3,
      ⟨q1, q2, [';'], hq1, hq2, Or.inr rfl, rfl⟩, ?_, ?_⟩
    · simp [hl, hxs, hrest1, hrest2]
    · simp [hlen]
      omega
  · have hm3b : (0 : Nat) = m3 := by simpa [matchHere] using h4
    refine ⟨q1 :: ("use strict".data ++ [q2] ++ []), rest2,
      ⟨q1, q2, [], hq1, hq2, Or.inl rfl, rfl⟩, ?_, ?_⟩
    · simp [hl, hxs, hrest1]
    · simp [hlen]
      omega

/-- `disagreesEarly s l`: within the overlap of `s` (expected literal
characters) and `l` (input), some character differs — so no extension of
`l` can begin with `s`. -/
def disagreesEarly : List Char → List Char → Bool
  | c :: s2, x :: l2 => x != c || disagreesEarly s2 l2
  | _, _ => false

/-- `noMatchStartAll s a`: at every start position inside `a`, the literal
`s` disagrees with `a` before `a` ends. -/
def noMatchStartAll (s : List Char) : List Char → Bool
  | [] => true
  | x :: rest => disagreesEarly s (x :: rest) && noMatchStartAll s rest

theorem disagreesEarly_append {s l : List Char} (b : List Char)
    (h : disagreesEarly s l = true) : disagreesEarly s (l ++ b) = true := by
  induction s generalizing l with
  | nil => simp [disagreesEarly] at h
  | cons c s2 ih =>
    cases l with
    | nil => simp [disagreesEarly] at h
    | cons x l2 =>
      simp only [disagreesEarly, Bool.or_eq_true] at h
      rcases h with h | h
      · simp [disagreesEarly, h]
      · simp [disagreesEarly, ih h]

theorem matchHere_lits_agree : ∀ (s : List Char) {ps : List Pat}
    {l : List Char} {n : Nat}, matchHere (s.map Pat.lit ++ ps) l = some n →
    disagreesEarly s l = false := by
  intro s
  induction s with
  | nil => intro ps l n _; cases l <;> rfl
  | cons c s2 ih =>
    intro ps l n h
    cases l with
    | nil => simp [matchHere] at h
    | cons x xs =>
      by_cases hx : x = c
      · subst hx
        simp only [List.map_cons, List.cons_append, matchHere, if_true,
          Option.map_eq_some'] at h
        obtain ⟨m, hm, _⟩ := h
        simp [disagreesEarly, ih hm]
      · simp [matchHere, hx] at h

theorem replaceFirstL_append (s : List Char) (ps : List Pat)
    (r : List Char) :
    ∀ (a b : List Char), noMatchStartAll s a = true →
      replaceFirstL (s.map Pat.lit ++ ps) r (a ++ b) =
        a ++ replaceFirstL (s.map Pat.lit ++ ps) r b := by
  intro a
  induction a with
  | nil => intro b _; rfl
  | cons x xs ih =>
    intro b hno
    simp only [noMatchStartAll, Bool.and_eq_true] at hno
    have hdis : disagreesEarly s ((x :: xs) ++ b) = true :=
      disagreesEarly_append b hno.1
    cases hm : matchHere (s.map Pat.lit ++ ps) (x :: (xs ++ b)) with
    | some n =>
      have := matchHere_lits_agree s hm
      rw [show x :: (xs ++ b) = (x :: xs) ++ b from rfl] at this
      rw [hdis] at this
      cases this
    | none =>
      simp only [List.cons_append, replaceFirstL, List.append_eq, hm]
      rw [ih b hno.2]

/-- The leading literal of the minified shell-check regex. -/
def shellLit : List Char := "if(!J)\x7blet F=\"No suitable shell found".data

/-- The rest of the minified shell-check pattern after the literal. -/
def shellRest : List Pat :=
  [.many 1 (fun c => c != '\x7d')] ++ litPats "throw" ++
    [.many 1 (fun c => c != '\x7d'), .lit '\x7d']

theorem shellCheckPats_eq :
    shellCheckPats = shellLit.map Pat.lit ++ shellRest := by
  simp [shellCheckPats, shellLit, shellRest, litPats, List.append_assoc]

theorem quote_cases {c : Char} (h : isQuoteChar c = true) :
    c = '\x27' ∨ c = '"' := by
  simpa [isQuoteChar, Bool.or_eq_true, beq_iff_eq] using h

set_option maxRecDepth 100000 in
theorem noMatch_shell_self :
    noMatchStartAll shellLit SHELL_DETECTION_CODE.data = true := by decide

set_option maxRecDepth 100000 in
theorem noMatch_shell_strict {d : List Char} (hd : isStrictHead d) :
    noMatchStartAll shellLit (d ++ SHELL_DETECTION_CODE.data) = true := by
  obtain ⟨q1, q2, semi, hq1, hq2, hsemi, hdval⟩ := hd
  subst hdval
  rcases quote_cases hq1 with h1 | h1 <;> subst h1 <;>
    rcases quote_cases hq2 with h2 | h2 <;> subst h2 <;>
      rcases hsemi with h3 | h3 <;> subst h3 <;> decide

theorem inject_bypass_structure (c2 : String) :
    ∃ d rest, (d = ([] : List Char) ∨ isStrictHead d) ∧
      (bypassShellCheck (injectShellDetection c2)).data =
        d ++ SHELL_DETECTION_CODE.data ++ rest := by
  cases hm : matchHere strictPats c2.data with
  | none =>
    have hinj : injectShellDetection c2 = SHELL_DETECTION_CODE ++ c2 := by
      simp [injectShellDetection, hm]
    rw [hinj]
    unfold bypassShellCheck
    by_cases ht : regexTest shellCheckPats (SHELL_DETECTION_CODE ++ c2)
    · rw [if_pos ht]
      refine ⟨[], replaceFirstL (shellLit.map Pat.lit ++ shellRest)
        shellCheckReplacement.data c2.data, Or.inl rfl, ?_⟩
      simp only [replaceFirst, String.data_append, shellCheckPats_eq]
      rw [replaceFirstL_append shellLit shellRest _ SHELL_DETECTION_CODE.data
        c2.data noMatch_shell_self]
      simp
    · rw [if_neg ht]
      exact ⟨[], c2.data, Or.inl rfl, by simp [String.data_append]⟩
  | some n =>
    obtain ⟨d, rest0, hd, hc2, hn⟩ := strict_inversion hm
    have htake : c2.data.take n = d := by
      rw [hc2, hn]; exact List.take_left d rest0
    have hdrop : c2.data.drop n = rest0 := by
      rw [hc2, hn]; exact List.drop_left d rest0
    have hinj : (injectShellDetection c2).data =
        (d ++ SHELL_DETECTION_CODE.data) ++ rest0 := by
      simp [injectShellDetection, hm, htake, hdrop, String.data_append,
        List.append_assoc]
    unfold bypassShellCheck
    by_cases ht : regexTest shellCheckPats (injectShellDetection c2)
    · rw [if_pos ht]
      refine ⟨d, replaceFirstL (shellLit.map Pat.lit ++ shellRest)
        shellCheckReplacement.data rest0, Or.inr hd, ?_⟩
      simp only [replaceFirst, shellCheckPats_eq]
      rw [hinj]
      rw [replaceFirstL_append shellLit shellRest _
        (d ++ SHELL_DETECTION_CODE.data) rest0 (noMatch_shell_strict hd)]
    · rw [if_neg ht]
      exact ⟨d, rest0, Or.inr hd, by simpa [List.append_assoc] using hinj⟩

theorem kleene_first (next : List Char → Option Nat) (xs : List Char)
    (k m : Nat) (h : next (xs.drop k) = some m) :
    kleeneGo next 0 xs k = some (k + m) := by
  cases k with
  | zero => simpa [kleeneGo] using h
  | succ k2 => simp [kleeneGo, h]

theorem takeWhile_ne_nl (line rest : List Char)
    (h : line.all (fun c => c != '\n') = true) :
    ((line ++ '\n' :: rest).takeWhile fun c => c != '\n') = line := by
  induction line with
  | nil => simp [List.takeWhile]
  | cons c cs ih =>
    simp only [List.all_cons, Bool.and_eq_true] at h
    simp [List.takeWhile, h.1, ih h.2]

theorem matchHere_shebang (line rest : List Char)
    (h : line.all (fun c => c != '\n') = true) :
    matchHere shebangPats ('#' :: '!' :: (line ++ '\n' :: rest)) =
      some (line.length + 3) := by
  have hinner : matchHere [Pat.lit '\n'] ('\n' :: rest) = some 1 := by
    simp [matchHere]
  have hdrop : (line ++ '\n' :: rest).drop line.length = '\n' :: rest :=
    List.drop_left line ('\n' :: rest)
  have hk : kleeneGo (matchHere [Pat.lit '\n']) 0 (line ++ '\n' :: rest)
      line.length = some (line.length + 1) := by
    apply kleene_first
    rw [hdrop]
    exact hinner
  have hmany : matchHere [Pat.many 0 (fun c => c != '\n'), Pat.lit '\n']
      (line ++ '\n' :: rest) = some (line.length + 1) := by
    have hu : matchHere [Pat.many 0 (fun c => c != '\n'), Pat.lit '\n']
        (line ++ '\n' :: rest) =
        kleeneGo (matchHere [Pat.lit '\n']) 0 (line ++ '\n' :: rest)
          (((line ++ '\n' :: rest).takeWhile fun c => c != '\n').length) :=
      rfl
    rw [hu, takeWhile_ne_nl line rest h]
    exact hk
  have houter : matchHere shebangPats ('#' :: '!' :: (line ++ '\n' :: rest)) =
      ((matchHere [Pat.many 0 (fun c => c != '\n'), Pat.lit '\n']
        (line ++ '\n' :: rest)).map (· + 1)).map (· + 1) := rfl
  rw [houter, hmany]
  simp only [Option.map_some']

theorem stripShebang_strips (line rest : List Char)
    (h : line.all (fun c => c != '\n') = true) :
    stripShebang ⟨'#' :: '!' :: (line ++ '\n' :: rest)⟩ = ⟨rest⟩ := by
  have hsplit : ('#' :: '!' :: (line ++ '\n' :: rest) : List Char) =
      (('#' :: '!' :: line) ++ ['\n']) ++ rest := by simp
  have hlen2 : (('#' :: '!' :: line) ++ ['\n'] : List Char).length =
      line.length + 3 := by
    simp only [List.length_append, List.length_cons, List.length_nil]
  simp only [stripShebang, matchHere_shebang line rest h]
  congr 1
  rw [hsplit]
  exact List.drop_left' hlen2

theorem startsWith_shebang_false {s : String} {x : Char} {t : List Char}
    (hs : s.data = x :: t) (hx : x ≠ '#') : strStartsWith s "#!" = false := by
  have hbx : ('#' == x) = false := by
    simp only [beq_eq_false_iff_ne, ne_eq]
    exact fun hh => hx hh.symm
  have hdata : "#!".data = ['#', '!'] := rfl
  simp [strStartsWith, hs, hdata, List.isPrefixOf, hbx]

set_option maxRecDepth 10000 in
theorem shell_code_head :
    ∃ t, SHELL_DETECTION_CODE.data = '\n' :: t := by
  have hS : SHELL_DETECTION_CODE.data.head? = some '\n' := by decide
  cases h : SHELL_DETECTION_CODE.data with
  | nil => rw [h] at hS; cases hS
  | cons a t =>
    rw [h] at hS
    obtain rfl : a = '\n' := by simpa using hS
    exact ⟨t, rfl⟩

theorem applyCommonPatches_structure (c : String) (tc : Option ToolConfig) :
    ∃ d rest, (d = ([] : List Char) ∨ isStrictHead d) ∧
      (applyCommonPatches c tc).data =
        d ++ SHELL_DETECTION_CODE.data ++ rest :=
  inject_bypass_structure (applyCommonMarker tc (stripShebang c))

theorem applyCommonPatches_no_shebang (c : String) (tc : Option ToolConfig) :
    strStartsWith (applyCommonPatches c tc) "#!" = false := by
  obtain ⟨d, rest, hd, hdata⟩ := applyCommonPatches_structure c tc
  obtain ⟨t, ht⟩ := shell_code_head
  rcases hd with rfl | hstrict
  · refine startsWith_shebang_false (x := '\n') (t := t ++ rest) ?_ (by decide)
    simp [hdata, ht]
  · obtain ⟨q1, q2, semi, hq1, _, _, hdval⟩ := hstrict
    refine startsWith_shebang_false (x := q1)
      (t := ("use strict".data ++ [q2] ++ semi) ++
        SHELL_DETECTION_CODE.data ++ rest) ?_ ?_
    · simp [hdata, hdval]
    · rcases quote_cases hq1 with h | h <;> subst h <;> decide

/-- C10: the prepared source content never begins with `#!`: the written
file always starts with the injected shell-detection code (or with the
preserved `'use strict'` directive followed by it), and
`applyCommonPatches` strips any newline-terminated leading shebang line
before injecting. -/
theorem C10_prepared_no_shebang (content : String) (tc : Option ToolConfig)
    (fs : FileSys) (sourceDir targetPlatform : String) :
    strStartsWith (applyCommonPatches content tc) "#!" = false ∧
    (∃ d rest, (d = ([] : List Char) ∨ isStrictHead d) ∧
      (applyCommonPatches content tc).data =
        d ++ SHELL_DETECTION_CODE.data ++ rest) ∧
    (∀ pPath out, prepareSource fs sourceDir targetPlatform tc =
        .ok (pPath, out) → strStartsWith out "#!" = false) ∧
    (∀ (line rest : List Char), line.all (fun c => c != '\n') = true →
      stripShebang ⟨'#' :: '!' :: (line ++ '\n' :: rest)⟩ = ⟨rest⟩) := by
  refine ⟨applyCommonPatches_no_shebang content tc,
    applyCommonPatches_structure content tc, ?_, stripShebang_strips⟩
  intro pPath out h
  cases hl : List.lookup (pathJoin sourceDir (entryPointOf tc)) fs with
  | none => simp [prepareSource, hl] at h
  | some content2 =>
    simp only [prepareSource, hl, Except.ok.injEq, Prod.mk.injEq] at h
    obtain ⟨-, hout⟩ := h
    rw [← hout]
    exact applyCommonPatches_no_shebang _ tc

set_option maxRecDepth 100000 in
/-- Witness for C10: a source with a real shebang line loses it, and the
patched output does not start with `#!`. -/
theorem C10_witness :
    strStartsWith (applyCommonPatches
      "#!/usr/bin/env node\nconsole.log(1);\n" none) "#!" = false ∧
    stripShebang "#!/usr/bin/env node\nx" = "x" := by
  obtain ⟨h1, _, _, h4⟩ := C10_prepared_no_shebang
    "#!/usr/bin/env node\nconsole.log(1);\n" none
    [("src/cli.js", "#!/usr/bin/env node\nconsole.log(1);\n")] "src" "linux"
  refine ⟨h1, ?_⟩
  have hline := h4 "/usr/bin/env node".data "x".data (by decide)
  have heq : ("#!/usr/bin/env node\nx" : String) =
      ⟨'#' :: '!' :: ("/usr/bin/env node".data ++ '\n' :: "x".data)⟩ := by
    decide
  rw [heq, hline]

end AtomCLI
